import Mathlib

/-
Verification of the incremental-synchronization core of the atp-analytics
repository: the merge engine (backend/storage/s3_data_store.py),
the sync orchestrators (backend/scraper/updater.py), the fetcher with retry
(backend/scraper/http_utils.py), and the parsers
(backend/scraper/player_scraper.py, backend/scraper/tournament_scraper.py).

Tables are modelled as lists of rows. A polars DataFrame row is either an
association list from column name to value (for the generic merge engine,
which is schema-polymorphic in the source) or a fixed record type matching
the schema in backend/scraper/schemas.py. A null cell is `Option.none`.
-/

/-- Cell values appearing in the tables: strings and 64-bit integers
(modelled as unbounded integers; no value in the claims approaches 2^63). -/
inductive Value where
  | vStr : String → Value
  | vInt : Int → Value
deriving DecidableEq

/-- One DataFrame row, schema-polymorphic: an association list from column
name to (non-null) value. A column that is absent or maps to nothing is null. -/
abbrev Row := List (String × Value)

/-- Look up a column's value in a row; `none` is a null cell. -/
def lookupVal (c : String) : Row → Option Value
  | [] => none
  | (c', v) :: rest => if c' = c then some v else lookupVal c rest

/-- Projection of a row to its key under a list of key columns, as used by
polars `unique(subset=unique_cols)`. Null cells compare equal, as in polars. -/
def rowKey (cols : List String) (r : Row) : List (Option Value) :=
  cols.map (fun c => lookupVal c r)

/-- Embedding of polars `DataFrame.unique(subset, keep="last")` applied to a
list of rows, with key projection `κ`: a row survives exactly when no later
row has the same key. (polars does not guarantee an output order; here the
survivors are materialized in input order.) -/
def dedupKeepLast {α β : Type} (κ : α → β) [DecidableEq β] : List α → List α
  | [] => []
  | a :: t =>
      if t.any (fun s => decide (κ s = κ a)) then dedupKeepLast κ t
      else a :: dedupKeepLast κ t

/-- Embedding of `upsert_data` from backend/storage/s3_data_store.py
(identical in backend/storage/data_store.py):
`pl.concat([existing_df, new_df]).unique(subset=unique_cols, keep="last")`. -/
def upsert_data (new_df existing_df : List Row) (unique_cols : List String) : List Row :=
  dedupKeepLast (rowKey unique_cols) (existing_df ++ new_df)

/-- Python string comparison (`<=`): lexicographic over code points.
Used by `sorted(...)` on date strings in update_rankings. -/
def strLe : List Char → List Char → Bool
  | [], _ => true
  | _ :: _, [] => false
  | x :: xs, y :: ys =>
      if x.toNat < y.toNat then true
      else if x.toNat = y.toNat then strLe xs ys
      else false

/-- Insert a string into a descending-sorted list, keeping it sorted. -/
def insertDesc (d : String) : List String → List String
  | [] => [d]
  | x :: xs => if strLe d.data x.data then x :: insertDesc d xs else d :: x :: xs

/-- Embedding of Python `sorted(l, reverse=True)` on strings. (Python's sort
is stable, but on a list of plain strings equal elements are identical values,
so the resulting list of values is the unique descending-sorted arrangement,
which insertion sort also produces.) -/
def sortDesc : List String → List String
  | [] => []
  | d :: ds => insertDesc d (sortDesc ds)

/-- One row of the rankings table (RANKINGS_SCHEMA in
backend/scraper/schemas.py). `date` and `rtype` are written unconditionally by
scrape_ranking (the requested date and ranking type), so they are plain
strings; the remaining columns are nullable. `rtype` embeds the source
column named `type`. -/
structure RankRow where
  rank : Option Int
  player_id : Option String
  points : Option Int
  points_move : Option Int
  tournaments_played : Option Int
  dropping : Option Int
  next_best : Option Int
  date : String
  rtype : String
deriving DecidableEq

/-- The composite ranking key (date, type, player) named by the spec. -/
def rankKey (r : RankRow) : String × String × Option String :=
  (r.date, r.rtype, r.player_id)

/-- Embedding of the missing-date computation in update_rankings
(backend/scraper/updater.py): `scraped_dates = set(existing["date"].unique())`
and `missing = sorted([d for d in all_dates if d not in scraped_dates],
reverse=True)`. -/
def missingDates (all_dates : List String) (existing : List RankRow) : List String :=
  sortDesc (all_dates.filter (fun d => decide (d ∉ existing.map RankRow.date)))

/-- Embedding of `dates_to_scrape = missing[:max_weeks] if max_weeks else
missing` in update_rankings: the slice is applied only when `max_weeks` is a
truthy value, i.e. neither `None` nor `0`. -/
def datesToScrape (missing : List String) : Option Nat → List String
  | none => missing
  | some m => if m = 0 then missing else missing.take m

/-- The nonempty ranking frames accumulated by the scrape loop of
update_rankings: `scrape` stands for the rankings part of
`scrape_ranking(ranking_type, date)` (an effectful fetch+parse, modelled as a
function from the requested date to the parsed rows; on failure it yields the
empty frame, which the loop drops via `if len(rankings_df) > 0`). -/
def rankingFrames (all_dates : List String) (existing : List RankRow)
    (scrape : String → List RankRow) (max_weeks : Option Nat) : List (List RankRow) :=
  ((datesToScrape (missingDates all_dates existing) max_weeks).map scrape).filter
    (fun f => decide (f ≠ []))

/-- Embedding of the rankings-persistence path of update_rankings: the table
passed to save_rankings, or `none` when the function returns 0 without
touching storage (no missing dates, or no ranking data scraped). The saved
table is `pl.concat([existing, pl.concat(ranking_frames)])` — a plain
concatenation, with no deduplication. -/
def updateRankingsSaved (all_dates : List String) (existing : List RankRow)
    (scrape : String → List RankRow) (max_weeks : Option Nat) : Option (List RankRow) :=
  if missingDates all_dates existing = [] then none
  else
    let frames := rankingFrames all_dates existing scrape max_weeks
    if frames = [] then none else some (existing ++ frames.flatten)

/-- Outcome of one attempt of `httpx.get(url, ...)` followed by
`raise_for_status()` in fetch_with_retry (backend/scraper/http_utils.py):
a 2xx response, a connect/read timeout, an HTTP status error (non-2xx),
or any other exception. -/
inductive Outcome (ρ : Type) where
  | success : ρ → Outcome ρ
  | timeout : Outcome ρ
  | statusError : Nat → Outcome ρ
  | otherError : Outcome ρ
deriving DecidableEq

/-- The retry loop of fetch_with_retry, at absolute attempt index `i` with
`rem` attempts remaining (including the current one). Returns the result
(`none` is the source's `return None`) paired with the list of the
`time.sleep(wait_time)` durations performed, in order; each wait is
`RETRY_BACKOFF_BASE ** attempt` with RETRY_BACKOFF_BASE = 2
(backend/scraper/config.py). A timeout retries only while
`attempt < max_retries - 1`; status errors and other exceptions return
immediately. -/
def fetchLoop {ρ : Type} (out : Nat → Outcome ρ) (i : Nat) : Nat → Option ρ × List Nat
  | 0 => (none, [])
  | rem + 1 =>
      match out i with
      | .success r => (some r, [])
      | .timeout =>
          if rem = 0 then (none, [])
          else
            let p := fetchLoop out (i + 1) rem
            (p.1, 2 ^ i :: p.2)
      | .statusError _ => (none, [])
      | .otherError => (none, [])

/-- Embedding of fetch_with_retry (backend/scraper/http_utils.py): run the
attempt loop `for attempt in range(max_retries)` from attempt 0. The network
is modelled by `out`, giving the outcome of the attempt with each index. -/
def fetchWithRetry {ρ : Type} (out : Nat → Outcome ρ) (max_retries : Nat) :
    Option ρ × List Nat :=
  fetchLoop out 0 max_retries

/-- Python `round` applied to the exact rational `n / d` (`d > 0`): round
half to even. The source computes `round(x)` of a float product; here the
product is kept exact, which agrees with the float computation on all inputs
relevant to the claims. -/
def pyRoundDiv (n d : Nat) : Nat :=
  let q := n / d
  let r := n % d
  if 2 * r < d then q else if d < 2 * r then q + 1 else if q % 2 = 0 then q else q + 1

/-- Python regex class `\s` restricted to ASCII, the alphabet of the scraped
pages: space, tab, newline, carriage return, vertical tab, form feed. -/
def isPySpace (c : Char) : Bool :=
  c = ' ' || c = '\t' || c = '\n' || c = '\r' || c = '\x0b' || c = '\x0c'

/-- Numeric value of a nonempty digit string, as Python `int(...)`. -/
def digitsToNat (ds : List Char) : Nat :=
  ds.foldl (fun acc c => 10 * acc + (c.toNat - '0'.toNat)) 0

/-- Does `sub` occur at the head of `s`? -/
def leadsWith : List Char → List Char → Bool
  | [], _ => true
  | _ :: _, [] => false
  | a :: as, b :: bs => a = b && leadsWith as bs

/-- Python `sub in s`: substring containment. -/
def hasSub (sub : List Char) : List Char → Bool
  | [] => leadsWith sub []
  | s@(_ :: t) => leadsWith sub s || hasSub sub t

/-- Python `str.strip()`: drop whitespace from both ends. -/
def stripChars (s : List Char) : List Char :=
  ((s.dropWhile isPySpace).reverse.dropWhile isPySpace).reverse

/-- Leftmost match of `re.search(r'\((\d+)kg\)', text)` in _extract_weight_kg
(backend/scraper/player_scraper.py), returning group 1 as a number. -/
def findKgParen : List Char → Option Nat
  | [] => none
  | '(' :: rest =>
      let ds := rest.takeWhile Char.isDigit
      let r := rest.dropWhile Char.isDigit
      if ds ≠ [] ∧ leadsWith ['k', 'g', ')'] r then some (digitsToNat ds)
      else findKgParen rest
  | _ :: rest => findKgParen rest

/-- Leftmost match of `re.search(r'(\d+)\s*lbs', text)`, returning group 1. -/
def findLbs : List Char → Option Nat
  | [] => none
  | s@(c :: rest) =>
      let ds := s.takeWhile Char.isDigit
      let r := (s.dropWhile Char.isDigit).dropWhile isPySpace
      if c.isDigit ∧ leadsWith ['l', 'b', 's'] r then some (digitsToNat ds)
      else findLbs rest

/-- Leftmost match of `re.search(r'\((\d+)cm\)', text)` in _extract_height_cm. -/
def findCm : List Char → Option Nat
  | [] => none
  | '(' :: rest =>
      let ds := rest.takeWhile Char.isDigit
      let r := rest.dropWhile Char.isDigit
      if ds ≠ [] ∧ leadsWith ['c', 'm', ')'] r then some (digitsToNat ds)
      else findCm rest

  | _ :: rest => findCm rest

/-- Leftmost match of the feet-and-inches pattern (digits, an apostrophe,
digits, a double quote) in _extract_height_cm, returning the two groups. -/
def findFtIn : List Char → Option (Nat × Nat)
  | [] => none
  | s@(c :: rest) =>
      let ds := s.takeWhile Char.isDigit
      let r := s.dropWhile Char.isDigit
      if c.isDigit then
        match r with
        | q :: r' =>
            if q = '\'' then
              let ds2 := r'.takeWhile Char.isDigit
              let r2 := r'.dropWhile Char.isDigit
              if ds2 ≠ [] ∧ leadsWith ['"'] r2 then some (digitsToNat ds, digitsToNat ds2)
              else findFtIn rest
            else findFtIn rest
        | [] => findFtIn rest
      else findFtIn rest

/-- Embedding of _extract_weight_kg: a parenthesized metric value is used
as-is; otherwise a pounds value is converted by
`round(int(match.group(1)) * 0.453592)` (0.453592 = 453592 / 1000000). -/
def extract_weight_kg (text : String) : Option Int :=
  match findKgParen text.data with
  | some k => some (k : Int)
  | none =>
      match findLbs text.data with
      | some p => some (pyRoundDiv (p * 453592) 1000000 : Int)
      | none => none

/-- Embedding of _extract_height_cm: a parenthesized metric value is used
as-is; otherwise feet and inches are converted by
`round((feet * 12 + inches) * 2.54)` (2.54 = 254 / 100). -/
def extract_height_cm (text : String) : Option Int :=
  match findCm text.data with
  | some k => some (k : Int)
  | none =>
      match findFtIn text.data with
      | some fi => some (pyRoundDiv ((fi.1 * 12 + fi.2) * 254) 100 : Int)
      | none => none

/-- Leftmost match of `re.search(r'(\d{4})/(\d{2})/(\d{2})', text)` in
_extract_date, returning the whole matched text (group 0). -/
def findDateYmd : List Char → Option (List Char)
  | [] => none
  | s@(_ :: rest) =>
      match s with
      | a :: b :: c :: d :: '/' :: e :: f :: '/' :: g :: h :: _ =>
          if [a, b, c, d, e, f, g, h].all Char.isDigit then
            some [a, b, c, d, '/', e, f, '/', g, h]
          else findDateYmd rest
      | _ => findDateYmd rest

/-- Embedding of _extract_date (backend/scraper/player_scraper.py). -/
def extract_date (text : String) : Option String :=
  (findDateYmd text.data).map (fun l => String.mk l)

/-- Embedding of _parse_plays (backend/scraper/player_scraper.py). -/
def parse_plays (text : String) : Option String × Option String :=
  (if hasSub "Right-Handed".data text.data then some "Right-Handed"
   else if hasSub "Left-Handed".data text.data then some "Left-Handed" else none,
   if hasSub "Two-Handed Backhand".data text.data then some "Two-Handed"
   else if hasSub "One-Handed Backhand".data text.data then some "One-Handed" else none)

/-- Python `str.isdigit()` restricted to ASCII: nonempty and all digits. -/
def isDigits (s : String) : Bool :=
  s.data ≠ [] && s.data.all Char.isDigit

/-- The bio-data dictionary built by the parsing loop of scrape_player
(backend/scraper/player_scraper.py). Each field is a dictionary slot for one
of the BIO_COLUMNS of backend/scraper/config.py: the outer Option is key
presence (none = the key was never assigned), the inner Option is the
assigned value, which the source can set to Python `None`. -/
structure BioDict where
  birthdate : Option (Option String) := none
  weight_kg : Option (Option Int) := none
  height_cm : Option (Option Int) := none
  turned_pro : Option (Option Int) := none
  country : Option (Option String) := none
  birthplace : Option (Option String) := none
  handedness : Option (Option String) := none
  backhand : Option (Option String) := none
  coach : Option (Option String) := none
deriving DecidableEq

/-- One iteration of the label/value dispatch in scrape_player: given the
stripped texts of the two spans of one list item, assign the corresponding
dictionary entries. Unknown labels assign nothing. -/
def applyLabel (d : BioDict) (label value : String) : BioDict :=
  if label = "Age" ∨ label = "DOB" then { d with birthdate := some (extract_date value) }
  else if label = "Weight" then { d with weight_kg := some (extract_weight_kg value) }
  else if label = "Height" then { d with height_cm := some (extract_height_cm value) }
  else if label = "Turned pro" then
    { d with turned_pro := some (if isDigits value then some (digitsToNat value.data : Int) else none) }
  else if label = "Country" then
    let s := stripChars (value.data.takeWhile (fun c => c ≠ '\n'))
    { d with country := some (if s = [] then none else some (String.mk s)) }
  else if label = "Birthplace" then
    { d with birthplace := some (if value = "" then none else some value) }
  else if label = "Plays" then
    { d with handedness := some (parse_plays value).1, backhand := some (parse_plays value).2 }
  else if label = "Coach" then
    { d with coach := some (if value = "" then none else some value) }
  else d

/-- The data dictionary produced by scrape_player from the (label, value)
pairs extracted from the bio list items, in document order. -/
def scrapePlayerFields (items : List (String × String)) : BioDict :=
  items.foldl (fun d lv => applyLabel d lv.1 lv.2) {}

/-- One row of the players table (PLAYERS_SCHEMA in
backend/scraper/schemas.py). `player_id` is the stable identity and is always
present in rows the code creates. -/
structure PlayerRow where
  player_id : String
  player_name : Option String
  birthdate : Option String
  weight_kg : Option Int
  height_cm : Option Int
  turned_pro : Option Int
  country : Option String
  birthplace : Option String
  handedness : Option String
  backhand : Option String
  coach : Option String
deriving DecidableEq

/-- Effect of the bio-merge loop of update_player_bio
(backend/scraper/updater.py) on the row matched by `player_id`: for each
column of BIO_COLUMNS (birthdate, weight_kg, height_cm, turned_pro, country,
birthplace, handedness, backhand, coach — the loop is unrolled over this
statically known list), the column is rewritten to `update_data.get(col)`
whenever `col in update_data`, even when the incoming value is null;
columns absent from the dictionary, and every column outside BIO_COLUMNS
(in particular player_name), are kept. -/
def applyBioUpdate (r : PlayerRow) (upd : BioDict) : PlayerRow :=
  { r with
    birthdate := upd.birthdate.getD r.birthdate
    weight_kg := upd.weight_kg.getD r.weight_kg
    height_cm := upd.height_cm.getD r.height_cm
    turned_pro := upd.turned_pro.getD r.turned_pro
    country := upd.country.getD r.country
    birthplace := upd.birthplace.getD r.birthplace
    handedness := upd.handedness.getD r.handedness
    backhand := upd.backhand.getD r.backhand
    coach := upd.coach.getD r.coach }

/-- Embedding of one pass of the `for player_id, update_data in
bio_field_updates.items()` loop of update_player_bio: the polars expression
`pl.when(pl.col("player_id") == player_id).then(pl.lit(update_data.get(col)))
.otherwise(pl.col(col))` rewrites the matching rows and keeps all others. -/
def updatePlayersTable (players : List PlayerRow) (pid : String) (upd : BioDict) :
    List PlayerRow :=
  players.map (fun r => if r.player_id = pid then applyBioUpdate r upd else r)

/-- The words of a string under Python `str.split()` with no argument:
maximal runs of non-whitespace characters. `acc` holds the current word,
reversed. -/
def wordsAux (acc : List Char) : List Char → List (List Char)
  | [] => if acc.isEmpty then [] else [acc.reverse]
  | c :: cs =>
      if isPySpace c then
        if acc.isEmpty then wordsAux [] cs else acc.reverse :: wordsAux [] cs
      else wordsAux (c :: acc) cs

/-- Python `date_str.split()`. -/
def pyWords (s : List Char) : List (List Char) :=
  wordsAux [] s

/-- Python `" ".join(words)`. -/
def joinSpace : List (List Char) → List Char
  | [] => []
  | [w] => w
  | w :: ws => w ++ ' ' :: joinSpace ws

/-- The space normalization `" ".join(date_str.split())` of _parse_date_range
(backend/scraper/tournament_scraper.py). -/
def normalizeSpaces (s : List Char) : List Char :=
  joinSpace (pyWords s)

/-- MONTH_MAP lookup with default, `MONTH_MAP.get(month, '01')`
(backend/scraper/config.py): a word that is not one of the twelve month
names yields '01'. -/
def monthNum (m : List Char) : String :=
  if m = "January".data then "01"
  else if m = "February".data then "02"
  else if m = "March".data then "03"
  else if m = "April".data then "04"
  else if m = "May".data then "05"
  else if m = "June".data then "06"
  else if m = "July".data then "07"
  else if m = "August".data then "08"
  else if m = "September".data then "09"
  else if m = "October".data then "10"
  else if m = "November".data then "11"
  else if m = "December".data then "12"
  else "01"

/-- Python `day.zfill(2)` on a digit string. -/
def zfill2 (d : List Char) : String :=
  if d.length ≥ 2 then String.mk d else String.mk ('0' :: d)

/-- The f-string `f"{year}-{month_num}-{day.zfill(2)}"` of _parse_date_range. -/
def mkDate (y : List Char) (mm : String) (d : List Char) : String :=
  String.mk y ++ "-" ++ mm ++ "-" ++ zfill2 d

/-- Anchored match of the single-month pattern
`(\d+)\s*-\s*(\d+)\s+([A-Za-z]+),?\s+(\d{4})` of _parse_date_range against a
prefix of the input, as Python `re.match`: trailing text is ignored. Each
sub-pattern here is over a character class disjoint from its successor, so
greedy matching without backtracking coincides with the regex semantics. -/
def matchP1 (s : List Char) : Option (String × String) :=
  let d1 := s.takeWhile Char.isDigit
  let r1 := (s.dropWhile Char.isDigit).dropWhile isPySpace
  if d1 = [] then none
  else
    match r1 with
    | '-' :: r2 =>
        let r3 := r2.dropWhile isPySpace
        let d2 := r3.takeWhile Char.isDigit
        let r4 := r3.dropWhile Char.isDigit
        let sp := r4.takeWhile isPySpace
        let r5 := r4.dropWhile isPySpace
        let mon := r5.takeWhile Char.isAlpha
        let r6 := r5.dropWhile Char.isAlpha
        let r7 := if r6.head? = some ',' then r6.tail else r6
        let sp2 := r7.takeWhile isPySpace
        let r8 := r7.dropWhile isPySpace
        let y := r8.take 4
        if d2 ≠ [] ∧ sp ≠ [] ∧ mon ≠ [] ∧ sp2 ≠ [] ∧ y.length = 4 ∧ y.all Char.isDigit then
          some (mkDate y (monthNum mon) d1, mkDate y (monthNum mon) d2)
        else none
    | _ => none

/-- Anchored match of the cross-month pattern
`(\d+)\s+([A-Za-z]+)\s*-\s*(\d+)\s+([A-Za-z]+),?\s+(\d{4})` of
_parse_date_range, as Python `re.match`. -/
def matchP2 (s : List Char) : Option (String × String) :=
  let d1 := s.takeWhile Char.isDigit
  let r1 := s.dropWhile Char.isDigit
  let sp1 := r1.takeWhile isPySpace
  let r2 := r1.dropWhile isPySpace
  let mon1 := r2.takeWhile Char.isAlpha
  let r3 := (r2.dropWhile Char.isAlpha).dropWhile isPySpace
  if d1 = [] ∨ sp1 = [] ∨ mon1 = [] then none
  else
    match r3 with
    | '-' :: r4 =>
        let r5 := r4.dropWhile isPySpace
        let d2 := r5.takeWhile Char.isDigit
        let r6 := r5.dropWhile Char.isDigit
        let sp2 := r6.takeWhile isPySpace
        let r7 := r6.dropWhile isPySpace
        let mon2 := r7.takeWhile Char.isAlpha
        let r8 := r7.dropWhile Char.isAlpha
        let r9 := if r8.head? = some ',' then r8.tail else r8
        let sp3 := r9.takeWhile isPySpace
        let r10 := r9.dropWhile isPySpace
        let y := r10.take 4
        if d2 ≠ [] ∧ sp2 ≠ [] ∧ mon2 ≠ [] ∧ sp3 ≠ [] ∧ y.length = 4 ∧ y.all Char.isDigit then
          some (mkDate y (monthNum mon1) d1, mkDate y (monthNum mon2) d2)
        else none
    | _ => none

/-- Anchored match of the cross-year pattern
`(\d+)\s+([A-Za-z]+),?\s+(\d{4})\s*-\s*(\d+)\s+([A-Za-z]+),?\s+(\d{4})` of
_parse_date_range, as Python `re.match`. -/
def matchP3 (s : List Char) : Option (String × String) :=
  let d1 := s.takeWhile Char.isDigit
  let r1 := s.dropWhile Char.isDigit
  let sp1 := r1.takeWhile isPySpace
  let r2 := r1.dropWhile isPySpace
  let mon1 := r2.takeWhile Char.isAlpha
  let r3 := r2.dropWhile Char.isAlpha
  let r4 := if r3.head? = some ',' then r3.tail else r3
  let sp2 := r4.takeWhile isPySpace
  let r5 := r4.dropWhile isPySpace
  let y1 := r5.take 4
  let r6 := (r5.drop 4).dropWhile isPySpace
  if d1 = [] ∨ sp1 = [] ∨ mon1 = [] ∨ sp2 = [] ∨ ¬ (y1.length = 4 ∧ y1.all Char.isDigit) then
    none
  else
    match r6 with
    | '-' :: r7 =>
        let r8 := r7.dropWhile isPySpace
        let d2 := r8.takeWhile Char.isDigit
        let r9 := r8.dropWhile Char.isDigit
        let sp3 := r9.takeWhile isPySpace
        let r10 := r9.dropWhile isPySpace
        let mon2 := r10.takeWhile Char.isAlpha
        let r11 := r10.dropWhile Char.isAlpha
        let r12 := if r11.head? = some ',' then r11.tail else r11
        let sp4 := r12.takeWhile isPySpace
        let r13 := r12.dropWhile isPySpace
        let y2 := r13.take 4
        if d2 ≠ [] ∧ sp3 ≠ [] ∧ mon2 ≠ [] ∧ sp4 ≠ [] ∧ y2.length = 4 ∧ y2.all Char.isDigit then
          some (mkDate y1 (monthNum mon1) d1, mkDate y2 (monthNum mon2) d2)
        else none
    | _ => none

/-- Embedding of _parse_date_range (backend/scraper/tournament_scraper.py):
an empty string is falsy and returns (None, None); otherwise the three
patterns are tried in order against the space-normalized string, and when
none matches the function falls through to (None, None). The function is
total: no branch raises. -/
def parse_date_range (s : String) : Option String × Option String :=
  if s = "" then (none, none)
  else
    let t := normalizeSpaces s.data
    match matchP1 t with
    | some p => (some p.1, some p.2)
    | none =>
        match matchP2 t with
        | some p => (some p.1, some p.2)
        | none =>
            match matchP3 t with
            | some p => (some p.1, some p.2)
            | none => (none, none)

/-- Modelled from the spec: is a word one of the twelve month names? Used
only to state what the spec's literal patterns accept, for comparison with
the source's `[A-Za-z]+` month group. -/
def specMonth (m : List Char) : Bool :=
  m = "January".data || m = "February".data || m = "March".data || m = "April".data ||
  m = "May".data || m = "June".data || m = "July".data || m = "August".data ||
  m = "September".data || m = "October".data || m = "November".data || m = "December".data

/-- Modelled from the spec: the literal single-month pattern
"D - D Month, YYYY" — as matchP1, but the month must be a real month name and
the whole string must be consumed. -/
def specPattern1 (s : List Char) : Bool :=
  let d1 := s.takeWhile Char.isDigit
  let r1 := (s.dropWhile Char.isDigit).dropWhile isPySpace
  match r1 with
  | '-' :: r2 =>
      let r3 := r2.dropWhile isPySpace
      let d2 := r3.takeWhile Char.isDigit
      let r4 := r3.dropWhile Char.isDigit
      let sp := r4.takeWhile isPySpace
      let r5 := r4.dropWhile isPySpace
      let mon := r5.takeWhile Char.isAlpha
      let r6 := r5.dropWhile Char.isAlpha
      let r7 := if r6.head? = some ',' then r6.tail else r6
      let sp2 := r7.takeWhile isPySpace
      let r8 := r7.dropWhile isPySpace
      d1 ≠ [] ∧ d2 ≠ [] ∧ sp ≠ [] ∧ specMonth mon ∧ sp2 ≠ [] ∧
        r8.length = 4 ∧ r8.all Char.isDigit
  | _ => false

/-- Modelled from the spec: the literal cross-month pattern
"D Month - D Month, YYYY", with real month names and full consumption. -/
def specPattern2 (s : List Char) : Bool :=
  let d1 := s.takeWhile Char.isDigit
  let r1 := s.dropWhile Char.isDigit
  let sp1 := r1.takeWhile isPySpace
  let r2 := r1.dropWhile isPySpace
  let mon1 := r2.takeWhile Char.isAlpha
  let r3 := (r2.dropWhile Char.isAlpha).dropWhile isPySpace
  match r3 with
  | '-' :: r4 =>
      let r5 := r4.dropWhile isPySpace
      let d2 := r5.takeWhile Char.isDigit
      let r6 := r5.dropWhile Char.isDigit
      let sp2 := r6.takeWhile isPySpace
      let r7 := r6.dropWhile isPySpace
      let mon2 := r7.takeWhile Char.isAlpha
      let r8 := r7.dropWhile Char.isAlpha
      let r9 := if r8.head? = some ',' then r8.tail else r8
      let sp3 := r9.takeWhile isPySpace
      let r10 := r9.dropWhile isPySpace
      d1 ≠ [] ∧ sp1 ≠ [] ∧ specMonth mon1 ∧ d2 ≠ [] ∧ sp2 ≠ [] ∧ specMonth mon2 ∧
        sp3 ≠ [] ∧ r10.length = 4 ∧ r10.all Char.isDigit
  | _ => false

/-- Modelled from the spec: the literal cross-year pattern
"D Month, YYYY - D Month, YYYY", with real month names and full consumption. -/
def specPattern3 (s : List Char) : Bool :=
  let d1 := s.takeWhile Char.isDigit
  let r1 := s.dropWhile Char.isDigit
  let sp1 := r1.takeWhile isPySpace
  let r2 := r1.dropWhile isPySpace
  let mon1 := r2.takeWhile Char.isAlpha
  let r3 := r2.dropWhile Char.isAlpha
  let r4 := if r3.head? = some ',' then r3.tail else r3
  let sp2 := r4.takeWhile isPySpace
  let r5 := r4.dropWhile isPySpace
  let y1 := r5.take 4
  let r6 := (r5.drop 4).dropWhile isPySpace
  match r6 with
  | '-' :: r7 =>
      let r8 := r7.dropWhile isPySpace
      let d2 := r8.takeWhile Char.isDigit
      let r9 := r8.dropWhile Char.isDigit
      let sp3 := r9.takeWhile isPySpace
      let r10 := r9.dropWhile isPySpace
      let mon2 := r10.takeWhile Char.isAlpha
      let r11 := r10.dropWhile Char.isAlpha
      let r12 := if r11.head? = some ',' then r11.tail else r11
      let sp4 := r12.takeWhile isPySpace
      let r13 := r12.dropWhile isPySpace
      d1 ≠ [] ∧ sp1 ≠ [] ∧ specMonth mon1 ∧ sp2 ≠ [] ∧ y1.length = 4 ∧
        y1.all Char.isDigit ∧ d2 ≠ [] ∧ sp3 ≠ [] ∧ specMonth mon2 ∧ sp4 ≠ [] ∧
        r13.length = 4 ∧ r13.all Char.isDigit
  | _ => false

/-- Modelled from the spec: a string is one of the three literal date-range
patterns of the spec (up to whitespace normalization). -/
def specIsDatePattern (s : String) : Bool :=
  specPattern1 (normalizeSpaces s.data) || specPattern2 (normalizeSpaces s.data) ||
    specPattern3 (normalizeSpaces s.data)

theorem dedupKeepLast_sublist {α β : Type} (κ : α → β) [DecidableEq β] :
    ∀ L : List α, (dedupKeepLast κ L).Sublist L
  | [] => List.Sublist.refl []
  | a :: t => by
      unfold dedupKeepLast
      split
      · exact (dedupKeepLast_sublist κ t).trans (List.sublist_cons_self a t)
      · exact (dedupKeepLast_sublist κ t).cons₂ a

theorem dedupKeepLast_pairwise {α β : Type} (κ : α → β) [DecidableEq β] :
    ∀ L : List α, (dedupKeepLast κ L).Pairwise (fun x y => κ x ≠ κ y)
  | [] => List.Pairwise.nil
  | a :: t => by
      unfold dedupKeepLast
      split
      · exact dedupKeepLast_pairwise κ t
      · refine List.Pairwise.cons ?_ (dedupKeepLast_pairwise κ t)
        intro b hb hab
        rename_i h
        rw [List.any_eq_true] at h
        exact h ⟨b, (dedupKeepLast_sublist κ t).subset hb, by simp [hab]⟩

theorem dedupKeepLast_filter_key {α β : Type} (κ : α → β) [DecidableEq β] (k : β) :
    ∀ L : List α,
      (dedupKeepLast κ L).filter (fun x => decide (κ x = k)) =
        ((L.filter (fun x => decide (κ x = k))).getLast?).toList
  | [] => rfl
  | a :: t => by
      unfold dedupKeepLast
      by_cases h : t.any (fun s => decide (κ s = κ a)) = true
      · rw [if_pos h]
        by_cases hak : κ a = k
        · have hne : t.filter (fun x => decide (κ x = k)) ≠ [] := by
            rw [List.any_eq_true] at h
            obtain ⟨s, hs, hsk⟩ := h
            rw [decide_eq_true_eq] at hsk
            have : s ∈ t.filter (fun x => decide (κ x = k)) :=
              List.mem_filter.mpr ⟨hs, by simp [hsk, hak]⟩
            intro hnil
            rw [hnil] at this
            exact List.not_mem_nil s this
          obtain ⟨b, l', hbl⟩ := List.exists_cons_of_ne_nil hne
          rw [List.filter_cons, if_pos (by simp [hak]), dedupKeepLast_filter_key κ k t, hbl,
            List.getLast?_cons_cons]
        · rw [List.filter_cons, if_neg (by simp [hak]), dedupKeepLast_filter_key κ k t]
      · rw [if_neg h]
        by_cases hak : κ a = k
        · have hemp : t.filter (fun x => decide (κ x = k)) = [] := by
            rw [List.filter_eq_nil_iff]
            intro s hs
            simp only [decide_eq_true_eq]
            intro hsk
            exact h (List.any_eq_true.mpr ⟨s, hs, by simp [hsk, hak]⟩)
          rw [List.filter_cons, if_pos (by simp [hak]), List.filter_cons,
            if_pos (by simp [hak]), dedupKeepLast_filter_key κ k t, hemp]
          rfl
        · rw [List.filter_cons, if_neg (by simp [hak]), List.filter_cons,
            if_neg (by simp [hak]), dedupKeepLast_filter_key κ k t]

/-- C2: upsert_data is last-write-wins by key. For every existing table, new
table, key-column list and key, the merged table's rows carrying that key are
exactly the last row with that key in the concatenation of existing then new
(so every duplicate key collapses to exactly one surviving row, the one
positioned later in concatenation order, with new preferred over existing),
and no two rows of the result share a key. -/
theorem upsert_data_last_write_wins (existing_df new_df : List Row)
    (unique_cols : List String) (k : List (Option Value)) :
    (upsert_data new_df existing_df unique_cols).filter
        (fun r => decide (rowKey unique_cols r = k)) =
      (((existing_df ++ new_df).filter
        (fun r => decide (rowKey unique_cols r = k))).getLast?).toList ∧
      (upsert_data new_df existing_df unique_cols).Pairwise
        (fun x y => rowKey unique_cols x ≠ rowKey unique_cols y) :=
  ⟨dedupKeepLast_filter_key (rowKey unique_cols) k (existing_df ++ new_df),
   dedupKeepLast_pairwise (rowKey unique_cols) (existing_df ++ new_df)⟩

/-- A sample row with player_id "p1" and a points value, for concrete tables. -/
def rowPts (n : Int) : Row :=
  [("player_id", Value.vStr "p1"), ("points", Value.vInt n)]

/-- A sample row keyed by player_id "p2". -/
def rowP2 : Row :=
  [("player_id", Value.vStr "p2"), ("points", Value.vInt 5)]

/-- C3 counterexample: the claim quantifies over every stored table T that
contains all rows of N, but when T itself carries a duplicate key, merging a
contained N collapses T's duplicate-key rows, so the result is not identical
to T (here it is not even a permutation of T: one row survives out of two). -/
theorem upsert_data_idem_fails_on_dup_key_table :
    ([rowPts 20] : List Row) ⊆ [rowPts 10, rowPts 20] ∧
      upsert_data [rowPts 20] [rowPts 10, rowPts 20] ["player_id"] ≠
        [rowPts 10, rowPts 20] ∧
      ¬ (upsert_data [rowPts 20] [rowPts 10, rowPts 20] ["player_id"]).Perm
          [rowPts 10, rowPts 20] := by
  refine ⟨by decide, by decide, ?_⟩
  intro h
  have := h.length_eq
  revert this
  decide

/-- C3 (amended): for every table T whose rows have pairwise distinct keys
under the key columns and every new table N all of whose rows already occur
in T, upsert_data(N, T, keys) is a permutation of T (the same rows: no
duplicate keys are introduced and the row count does not grow; polars
`unique` guarantees no output order, so table identity is identity up to row
order), and the result again has pairwise distinct keys. -/
theorem upsert_data_idempotent (T N : List Row) (cols : List String)
    (hT : T.Pairwise (fun x y => rowKey cols x ≠ rowKey cols y))
    (hN : ∀ r ∈ N, r ∈ T) :
    (upsert_data N T cols).Perm T ∧
      (upsert_data N T cols).Pairwise (fun x y => rowKey cols x ≠ rowKey cols y) := by
  have hsymm : Symmetric (fun x y : Row => rowKey cols x ≠ rowKey cols y) :=
    fun x y h e => h e.symm
  have hpair := dedupKeepLast_pairwise (rowKey cols) (T ++ N)
  have hDnodup : (upsert_data N T cols).Nodup :=
    hpair.imp (fun h e => h (by rw [e]))
  have hTnodup : T.Nodup := hT.imp (fun h e => h (by rw [e]))
  have hmem : ∀ r, r ∈ upsert_data N T cols ↔ r ∈ T := by
    intro r
    constructor
    · intro hr
      have hr2 := (dedupKeepLast_sublist (rowKey cols) (T ++ N)).subset hr
      rcases List.mem_append.mp hr2 with h | h
      · exact h
      · exact hN r h
    · intro hr
      have hrfilter : r ∈ (T ++ N).filter (fun x => decide (rowKey cols x = rowKey cols r)) :=
        List.mem_filter.mpr ⟨List.mem_append_left _ hr, by simp⟩
    
      have hall : ∀ x ∈ (T ++ N).filter (fun x => decide (rowKey cols x = rowKey cols r)),
          x = r := by
        intro x hx
        have hxk : rowKey cols x = rowKey cols r := by
          simpa using (List.mem_filter.mp hx).2
        have hxT : x ∈ T := by
          rcases List.mem_append.mp (List.mem_of_mem_filter hx) with h | h
          · exact h
          · exact hN x h
        by_contra hne
        exact (hT.forall hsymm hxT hr hne) hxk
      have hfne : (T ++ N).filter (fun x => decide (rowKey cols x = rowKey cols r)) ≠ [] := by
        intro h0
        rw [h0] at hrfilter
        exact List.not_mem_nil r hrfilter
      have hlast : ((T ++ N).filter
          (fun x => decide (rowKey cols x = rowKey cols r))).getLast? = some r := by
        rw [List.getLast?_eq_getLast _ hfne]
        exact congrArg some (hall _ (List.getLast_mem hfne))
      have hmemfilter : r ∈ (upsert_data N T cols).filter
          (fun x => decide (rowKey cols x = rowKey cols r)) := by
        rw [show (upsert_data N T cols) = dedupKeepLast (rowKey cols) (T ++ N) from rfl,
          dedupKeepLast_filter_key (rowKey cols) (rowKey cols r) (T ++ N), hlast]
        simp
      exact List.mem_of_mem_filter hmemfilter
  exact ⟨(List.perm_ext_iff_of_nodup hDnodup hTnodup).mpr hmem, hpair⟩

/-- Witness for the amended C3 at a concrete table: T has two rows with
distinct keys, N repeats one of them; the merge is a permutation of T. -/
theorem upsert_data_idempotent_witness :
    (upsert_data [rowPts 10] [rowPts 10, rowP2] ["player_id"]).Perm [rowPts 10, rowP2] ∧
      (upsert_data [rowPts 10] [rowPts 10, rowP2] ["player_id"]).Pairwise
        (fun x y => rowKey ["player_id"] x ≠ rowKey ["player_id"] y) :=
  upsert_data_idempotent [rowPts 10, rowP2] [rowPts 10] ["player_id"]
    (by decide) (by decide)

/-- A stored players-table row with a known name and country and no other
bio data. -/
def storedAnn : PlayerRow :=
  { player_id := "p1", player_name := some "Ann", birthdate := none, weight_kg := none,
    height_cm := none, turned_pro := none, country := some "USA", birthplace := none,
    handedness := none, backhand := none, coach := none }

/-- C1 (evaluation at the failing input): scrape_player maps a bio page whose
Country item is empty and whose Weight item reads "176 lbs" to the update
dictionary with country present-but-null and weight_kg 80; merging it through
the update_player_bio loop into a stored row with country "USA" REPLACES the
stored country with null (because the loop overwrites every column whose key
is present in the dictionary, null-valued or not), while the claim requires
the merged row to keep country "USA". The name is preserved and weight_kg
becomes 80 as claimed. -/
theorem update_player_bio_regresses_stored_country :
    (scrapePlayerFields [("Country", ""), ("Weight", "176 lbs")]).country = some none ∧
      updatePlayersTable [storedAnn] "p1"
          (scrapePlayerFields [("Country", ""), ("Weight", "176 lbs")]) =
        [{ storedAnn with country := none, weight_kg := some 80 }] := by
  decide

/-- A concrete ranking row for date 2024-01-01. -/
def rrA : RankRow :=
  { rank := some 1, player_id := some "p1", points := some 100, points_move := none,
    tournaments_played := none, dropping := none, next_best := none,
    date := "2024-01-01", rtype := "singles" }

/-- A second ranking row sharing the (date, type, player) key of rrA but
differing in rank and points. -/
def rrB : RankRow :=
  { rrA with rank := some 2, points := some 90 }

/-- A concrete ranking row for date 2024-01-08 and a fresh player. -/
def rrNew : RankRow :=
  { rank := some 1, player_id := some "p9", points := some 10, points_move := none,
    tournaments_played := none, dropping := none, next_best := none,
    date := "2024-01-08", rtype := "singles" }

/-- A scrape response that returns exactly one row carrying the requested
date. -/
def scrapeOne : String → List RankRow :=
  fun d => [{ rrNew with date := d }]

/-- C4 counterexample: update_rankings persists a plain concatenation with no
per-key deduplication, so when one scraped frame carries two distinct rows
with the same (date, type, player) key, the persisted ranking table contains
both — the claim's "at most one row per (date, type, player_id)" fails. -/
theorem update_rankings_persists_duplicate_keys :
    updateRankingsSaved ["2024-01-01"] [] (fun _ => [rrA, rrB]) none = some [rrA, rrB] ∧
      rankKey rrA = rankKey rrB ∧ rrA ≠ rrB := by
  decide

theorem mem_insertDesc (b d : String) : ∀ l : List String, b ∈ insertDesc d l ↔ b = d ∨ b ∈ l
  | [] => by simp [insertDesc]
  | x :: xs => by
      unfold insertDesc
      by_cases hc : strLe d.data x.data = true
      · rw [if_pos hc]
        simp only [List.mem_cons, mem_insertDesc b d xs]
        tauto
      · rw [if_neg hc]
        simp only [List.mem_cons]

theorem mem_sortDesc (b : String) : ∀ l : List String, b ∈ sortDesc l ↔ b ∈ l
  | [] => Iff.rfl
  | d :: ds => by
      unfold sortDesc
      rw [mem_insertDesc b d (sortDesc ds), mem_sortDesc b ds, List.mem_cons]

theorem datesToScrape_subset (missing : List String) (mw : Option Nat) :
    ∀ d ∈ datesToScrape missing mw, d ∈ missing := by
  cases mw with
  | none => exact fun d hd => hd
  | some m =>
      intro d hd
      simp only [datesToScrape] at hd
      by_cases hm : m = 0
      · rw [if_pos hm] at hd
        exact hd
      · rw [if_neg hm] at hd
        exact List.take_subset m missing hd

/-- C4 (amended): when update_rankings persists, the saved ranking table is
exactly the previously stored table concatenated with the newly scraped
frames, with no deduplication. Provided scraped rows carry the date they were
requested for (as scrape_ranking writes `"date": date` unconditionally), no
new row shares the (date, type, player) key with any previously stored row,
because only dates absent from the stored table are scraped; but duplicate
keys inside the stored table or inside the scraped frames are preserved. -/
theorem update_rankings_concat_no_cross_collision (all_dates : List String)
    (existing : List RankRow) (scrape : String → List RankRow) (max_weeks : Option Nat)
    (saved : List RankRow)
    (hdate : ∀ d : String, ∀ r ∈ scrape d, r.date = d)
    (hsave : updateRankingsSaved all_dates existing scrape max_weeks = some saved) :
    saved = existing ++ (rankingFrames all_dates existing scrape max_weeks).flatten ∧
      ∀ r ∈ (rankingFrames all_dates existing scrape max_weeks).flatten,
        ∀ e ∈ existing, rankKey r ≠ rankKey e := by
  constructor
  · unfold updateRankingsSaved at hsave
    by_cases h1 : missingDates all_dates existing = []
    · rw [if_pos h1] at hsave
      exact absurd hsave (by simp)
    · rw [if_neg h1] at hsave
      by_cases h2 : rankingFrames all_dates existing scrape max_weeks = []
      · rw [if_pos h2] at hsave
        exact absurd hsave (by simp)
      · rw [if_neg h2] at hsave
        exact (Option.some.injEq _ _ ▸ hsave).symm
  · intro r hr e he
    rw [List.mem_flatten] at hr
    obtain ⟨f, hf, hrf⟩ := hr
    have hf2 : f ∈ (datesToScrape (missingDates all_dates existing) max_weeks).map scrape :=
      List.mem_of_mem_filter hf
    rw [List.mem_map] at hf2
    obtain ⟨d, hd, rfl⟩ := hf2
    have hdm : d ∈ missingDates all_dates existing :=
      datesToScrape_subset _ _ d hd
    have hdm2 : d ∈ all_dates.filter (fun x => decide (x ∉ existing.map RankRow.date)) := by
      rw [← mem_sortDesc]
      exact hdm
    have hdnot : d ∉ existing.map RankRow.date := by
      have := (List.mem_filter.mp hdm2).2
      exact of_decide_eq_true this
    have hrd : r.date = d := hdate d r hrf
    intro hk
    have hdates : r.date = e.date := congrArg Prod.fst hk
    exact hdnot (hrd ▸ hdates ▸ List.mem_map_of_mem RankRow.date he)

/-- Witness for the amended C4 at concrete inputs: one stored row for
2024-01-01, remote dates 2024-01-08 and 2024-01-01, a scrape yielding one row
per date; the saved table is the concatenation, and the new row's key
collides with no stored row. -/
theorem update_rankings_concat_witness :
    ([rrA, rrNew] : List RankRow) =
        [rrA] ++ (rankingFrames ["2024-01-08", "2024-01-01"] [rrA] scrapeOne none).flatten ∧
      ∀ r ∈ (rankingFrames ["2024-01-08", "2024-01-01"] [rrA] scrapeOne none).flatten,
        ∀ e ∈ [rrA], rankKey r ≠ rankKey e :=
  update_rankings_concat_no_cross_collision ["2024-01-08", "2024-01-01"] [rrA] scrapeOne
    none [rrA, rrNew]
    (by
      intro d r hr
      simp only [scrapeOne, List.mem_singleton] at hr
      rw [hr])
    (by decide)

theorem range_pow_shift (i n : Nat) :
    (List.range (n + 1)).map (fun j => 2 ^ (i + j)) =
      2 ^ i :: (List.range n).map (fun j => 2 ^ (i + 1 + j)) := by
  rw [List.range_succ_eq_map, List.map_cons, List.map_map]
  refine congrArg₂ _ (by rw [Nat.add_zero]) ?_
  refine List.map_congr_left ?_
  intro a _
  show 2 ^ (i + (a + 1)) = 2 ^ (i + 1 + a)
  rw [show i + (a + 1) = i + 1 + a by omega]

theorem fetchLoop_success {ρ : Type} (out : Nat → Outcome ρ) (i rem : Nat) (r : ρ)
    (h : out i = .success r) : fetchLoop out i (rem + 1) = (some r, []) := by
  conv_lhs => rw [fetchLoop]
  rw [h]

theorem fetchLoop_status {ρ : Type} (out : Nat → Outcome ρ) (i rem c : Nat)
    (h : out i = .statusError c) : fetchLoop out i (rem + 1) = (none, []) := by
  conv_lhs => rw [fetchLoop]
  rw [h]

theorem fetchLoop_timeout_last {ρ : Type} (out : Nat → Outcome ρ) (i : Nat)
    (h : out i = .timeout) : fetchLoop out i 1 = (none, []) := by
  conv_lhs => rw [fetchLoop]
  rw [h]
  simp

theorem fetchLoop_timeout_step {ρ : Type} (out : Nat → Outcome ρ) (i s : Nat)
    (h : out i = .timeout) :
    fetchLoop out i (s + 2) =
      ((fetchLoop out (i + 1) (s + 1)).1, 2 ^ i :: (fetchLoop out (i + 1) (s + 1)).2) := by
  conv_lhs => rw [fetchLoop]
  rw [h]
  simp

theorem fetchLoop_spec {ρ : Type} (out : Nat → Outcome ρ) (k : Nat)
    (htime : ∀ j, j < k → out j = .timeout) :
    ∀ (rem i : Nat),
      (∀ r : ρ, k < i + rem → i ≤ k → out k = .success r →
          fetchLoop out i rem = (some r, (List.range (k - i)).map (fun j => 2 ^ (i + j)))) ∧
        (i + rem ≤ k →
          fetchLoop out i rem = (none, (List.range (rem - 1)).map (fun j => 2 ^ (i + j)))) ∧
        (∀ c : Nat, k < i + rem → i ≤ k → out k = .statusError c →
          fetchLoop out i rem = (none, (List.range (k - i)).map (fun j => 2 ^ (i + j)))) := by
  intro rem
  induction rem with
  | zero =>
      intro i
      refine ⟨fun r h1 h2 _ => absurd h1 (by omega), fun _ => rfl,
        fun c h1 h2 _ => absurd h1 (by omega)⟩
  | succ s ih =>
      intro i
      by_cases hik : i = k
      · subst hik
        refine ⟨?_, ?_, ?_⟩
        · intro r _ _ hout
          rw [fetchLoop_success out i s r hout, Nat.sub_self, List.range_zero, List.map_nil]
        · intro h
          omega
        · intro c _ _ hout
          rw [fetchLoop_status out i s c hout, Nat.sub_self, List.range_zero, List.map_nil]
      · by_cases hlt : i < k
        · have hout : out i = .timeout := htime i hlt
          match s, ih with
          | 0, _ =>
              refine ⟨?_, ?_, ?_⟩
              · intro r h1 _ _
                omega
              · intro _
                rw [fetchLoop_timeout_last out i hout]
                rfl
              · intro c h1 _ _
                omega
          | s' + 1, ih =>
              have hkk : k - i = (k - (i + 1)) + 1 := by omega
              have hstep := fetchLoop_timeout_step out i s' hout
              refine ⟨?_, ?_, ?_⟩
              · intro r h1 h2 hsucc
                have hrec := (ih (i + 1)).1 r (by omega) (by omega) hsucc
                rw [hstep, hrec, hkk, range_pow_shift]
              · intro h1
                have hrec := (ih (i + 1)).2.1 (by omega)
                rw [hstep, hrec]
                rw [show s' + 1 + 1 - 1 = (s' + 1 - 1) + 1 by omega, range_pow_shift]
              · intro c h1 h2 hstat
                have hrec := (ih (i + 1)).2.2 c (by omega) (by omega) hstat
                rw [hstep, hrec, hkk, range_pow_shift]
        · refine ⟨fun r _ h2 _ => absurd h2 (by omega), fun h1 => absurd h1 (by omega),
            fun c _ h2 _ => absurd h2 (by omega)⟩

/-- C5: fetch_with_retry retries a connect/read timeout only while attempts
remain, sleeping `RETRY_BACKOFF_BASE ** attempt` = 2^attempt seconds before
each retry (1s, 2s, 4s, ... for the 0-based attempt index), and fails once
the attempt cap is exhausted. If the first k attempts time out, then: when
another attempt remains and attempt k succeeds with response r, the call
returns r after having slept 1, 2, ..., 2^(k-1); when the cap is k or
smaller, the call returns failure after its cap-1 sleeps. -/
theorem fetch_with_retry_backoff {ρ : Type} (out : Nat → Outcome ρ)
    (max_retries k : Nat) (r : ρ) (htime : ∀ j, j < k → out j = .timeout) :
    (k < max_retries → out k = .success r →
        fetchWithRetry out max_retries = (some r, (List.range k).map (fun j => 2 ^ j))) ∧
      (max_retries ≤ k →
        fetchWithRetry out max_retries =
          (none, (List.range (max_retries - 1)).map (fun j => 2 ^ j))) := by
  have h := fetchLoop_spec out k htime max_retries 0
  constructor
  · intro h1 h2
    have := h.1 r (by omega) (by omega) h2
    rw [fetchWithRetry, this, Nat.sub_zero]
    refine congrArg _ (List.map_congr_left ?_)
    intro a _
    rw [Nat.zero_add]
  · intro h1
    have := h.2.1 (by omega)
    rw [fetchWithRetry, this]
    refine congrArg _ (List.map_congr_left ?_)
    intro a _
    rw [Nat.zero_add]

/-- A network trace that times out twice and then succeeds. -/
def outTwoTimeouts : Nat → Outcome String
  | 0 => .timeout
  | 1 => .timeout
  | _ => .success "ok"

/-- Witness for C5: a three-attempt fetch over a trace that times out twice
then succeeds sleeps 1s then 2s and returns the successful response. -/
theorem fetch_with_retry_backoff_witness :
    fetchWithRetry outTwoTimeouts 3 = (some "ok", [1, 2]) :=
  (fetch_with_retry_backoff outTwoTimeouts 3 2 "ok" (by decide)).1 (by decide) (by decide)

/-- C8: a completed request with a non-2xx HTTP status makes fetch_with_retry
return failure at once — no retry and no backoff sleep follow it, no matter
how many attempts remain: if the attempts before index k timed out and
attempt k < max_retries raises the status error, the call returns None having
slept only the k backoff sleeps that preceded the failing attempt (none when
the status error is on the first attempt). -/
theorem fetch_with_retry_status_error {ρ : Type} (out : Nat → Outcome ρ)
    (max_retries k c : Nat) (htime : ∀ j, j < k → out j = .timeout)
    (hk : k < max_retries) (hs : out k = .statusError c) :
    fetchWithRetry out max_retries = (none, (List.range k).map (fun j => 2 ^ j)) := by
  have h := (fetchLoop_spec out k htime max_retries 0).2.2 c (by omega) (by omega) hs
  rw [fetchWithRetry, h, Nat.sub_zero]
  refine congrArg _ (List.map_congr_left ?_)
  intro a _
  rw [Nat.zero_add]

/-- A network trace whose first attempt completes with HTTP 404. -/
def outNotFound : Nat → Outcome String :=
  fun _ => .statusError 404

/-- Witness for C8: with three attempts allowed, a 404 on the first attempt
returns failure with no sleep at all. -/
theorem fetch_with_retry_status_error_witness :
    fetchWithRetry outNotFound 3 = (none, []) :=
  fetch_with_retry_status_error outNotFound 3 0 404 (by omega) (by omega) (by decide)

/-- C6 counterexample: `_parse_date_range` does not recognize exactly the
three literal patterns. "3 - 9 Hamburg, 2022" matches none of them (Hamburg
is not a month name), so under the claim it must yield (null, null); but the
source regex accepts any alphabetic word as the month group and
`MONTH_MAP.get(month, '01')` silently defaults it to January, so the code
returns ("2022-01-03", "2022-01-09"). -/
theorem parse_date_range_accepts_unknown_month :
    specIsDatePattern "3 - 9 Hamburg, 2022" = false ∧
      parse_date_range "3 - 9 Hamburg, 2022" = (some "2022-01-03", some "2022-01-09") := by
  decide

/-- C6 (amended): the three claimed example inputs parse to the claimed ISO
date pairs, and an input on which none of the three regexes of the source
match (against the space-normalized text) yields (null, null); the function
is total, so no input raises. (Beyond the claim as stated, the regexes match
prefixes and accept any alphabetic word as a month, defaulting unknown
months to January, as the counterexample shows.) -/
theorem parse_date_range_spec :
    parse_date_range "3 - 9 January, 2022" = (some "2022-01-03", some "2022-01-09") ∧
      parse_date_range "27 October - 2 November, 2025" =
        (some "2025-10-27", some "2025-11-02") ∧
      parse_date_range "23 December, 2024 - 5 January, 2025" =
        (some "2024-12-23", some "2025-01-05") ∧
      ∀ s : String, matchP1 (normalizeSpaces s.data) = none →
        matchP2 (normalizeSpaces s.data) = none →
        matchP3 (normalizeSpaces s.data) = none →
        parse_date_range s = (none, none) := by
  refine ⟨by decide, by decide, by decide, ?_⟩
  intro s h1 h2 h3
  unfold parse_date_range
  by_cases hs : s = ""
  · rw [if_pos hs]
  · rw [if_neg hs]
    simp only [h1, h2, h3]

/-- Witness for the amended C6 at a concrete unmatched input. -/
theorem parse_date_range_spec_witness :
    parse_date_range "Week of 10 June" = (none, none) :=
  parse_date_range_spec.2.2.2 "Week of 10 June" (by decide) (by decide) (by decide)

theorem strLe_total : ∀ a b : List Char, strLe a b = true ∨ strLe b a = true
  | [], _ => Or.inl rfl
  | _ :: _, [] => Or.inr rfl
  | x :: xs, y :: ys => by
      unfold strLe
      rcases Nat.lt_trichotomy x.toNat y.toNat with h | h | h
      · left
        rw [if_pos h]
      · rw [if_neg (by omega), if_pos h, if_neg (by omega), if_pos h.symm]
        exact strLe_total xs ys
      · right
        rw [if_pos h]

theorem strLe_trans : ∀ a b c : List Char,
    strLe a b = true → strLe b c = true → strLe a c = true
  | [], _, _ => fun _ _ => rfl
  | x :: xs, [], c => by
      intro h
      simp [strLe] at h
  | x :: xs, y :: ys, [] => by
      intro _ h
      simp [strLe] at h
  | x :: xs, y :: ys, z :: zs => by
      unfold strLe
      intro hab hbc
      rcases Nat.lt_trichotomy x.toNat y.toNat with h1 | h1 | h1
      · rcases Nat.lt_trichotomy y.toNat z.toNat with h2 | h2 | h2
        · rw [if_pos (by omega)]
        · rw [if_pos (by omega)]
        · rw [if_neg h2.asymm, if_neg (by omega)] at hbc
          exact absurd hbc (by simp)
      · rw [if_neg (by omega), if_pos h1] at hab
        rcases Nat.lt_trichotomy y.toNat z.toNat with h2 | h2 | h2
        · rw [if_pos (by omega)]
        · rw [if_neg (by omega), if_pos h2] at hbc
          rw [if_neg (by omega), if_pos (by omega)]
          exact strLe_trans xs ys zs hab hbc
        · rw [if_neg h2.asymm, if_neg (by omega)] at hbc
          exact absurd hbc (by simp)
      · rw [if_neg h1.asymm, if_neg (by omega)] at hab
        exact absurd hab (by simp)

theorem pairwise_insertDesc (d : String) (l : List String)
    (h : l.Pairwise (fun a b => strLe b.data a.data = true)) :
    (insertDesc d l).Pairwise (fun a b => strLe b.data a.data = true) := by
  induction l with
  | nil => simp [insertDesc]
  | cons x xs ih =>
      rw [List.pairwise_cons] at h
      obtain ⟨hx, hxs⟩ := h
      unfold insertDesc
      by_cases hc : strLe d.data x.data = true
      · rw [if_pos hc, List.pairwise_cons]
        refine ⟨?_, ih hxs⟩
        intro b hb
        rcases (mem_insertDesc b d xs).mp hb with rfl | hbxs
        · exact hc
        · exact hx b hbxs
      · rw [if_neg hc, List.pairwise_cons]
        have hxd : strLe x.data d.data = true :=
          (strLe_total d.data x.data).resolve_left hc
        refine ⟨?_, List.Pairwise.cons hx hxs⟩
        intro b hb
        rcases List.mem_cons.mp hb with rfl | hbxs
        · exact hxd
        · exact strLe_trans b.data x.data d.data (hx b hbxs) hxd

theorem sortDesc_pairwise :
    ∀ l : List String, (sortDesc l).Pairwise (fun a b => strLe b.data a.data = true)
  | [] => List.Pairwise.nil
  | d :: ds => pairwise_insertDesc d (sortDesc ds) (sortDesc_pairwise ds)

/-- C7: with a positive cap m smaller than the number of missing dates,
update_rankings selects exactly the first m entries of the missing dates
sorted most-recent-first: the selection is `missing[:m]`, has length exactly
m, is itself in descending date order, consists only of remotely available
dates absent from the stored table, and dominates every unselected missing
date (so it is exactly the m most recent missing dates, processed in
descending order, since the scrape loop iterates the selection in list
order). -/
theorem update_rankings_batching (all_dates : List String) (existing : List RankRow)
    (m : Nat) (hm : 0 < m) (hlen : m < (missingDates all_dates existing).length) :
    datesToScrape (missingDates all_dates existing) (some m) =
        (missingDates all_dates existing).take m ∧
      (datesToScrape (missingDates all_dates existing) (some m)).length = m ∧
      (datesToScrape (missingDates all_dates existing) (some m)).Pairwise
        (fun a b => strLe b.data a.data = true) ∧
      (∀ d ∈ datesToScrape (missingDates all_dates existing) (some m),
        d ∈ all_dates ∧ d ∉ existing.map RankRow.date) ∧
      ∀ d ∈ datesToScrape (missingDates all_dates existing) (some m),
        ∀ e ∈ (missingDates all_dates existing).drop m, strLe e.data d.data = true := by
  have hm0 : m ≠ 0 := Nat.pos_iff_ne_zero.mp hm
  have heq : datesToScrape (missingDates all_dates existing) (some m) =
      (missingDates all_dates existing).take m := by
    simp only [datesToScrape]
    rw [if_neg hm0]
  have hpair : (missingDates all_dates existing).Pairwise
      (fun a b => strLe b.data a.data = true) :=
    sortDesc_pairwise (all_dates.filter (fun d => decide (d ∉ existing.map RankRow.date)))
  refine ⟨heq, ?_, ?_, ?_, ?_⟩
  · rw [heq, List.length_take]
    omega
  · rw [heq]
    exact hpair.sublist (List.take_sublist m _)
  · rw [heq]
    intro d hd
    have hdm : d ∈ missingDates all_dates existing := List.take_subset m _ hd
    have hdm2 : d ∈ all_dates.filter (fun x => decide (x ∉ existing.map RankRow.date)) :=
      (mem_sortDesc d _).mp hdm
    exact ⟨List.mem_of_mem_filter hdm2, of_decide_eq_true (List.mem_filter.mp hdm2).2⟩
  · rw [heq]
    intro d hd e he
    have hp2 := hpair
    rw [← List.take_append_drop m (missingDates all_dates existing),
      List.pairwise_append] at hp2
    exact hp2.2.2 d hd e he

/-- Ten remote ranking dates, unsorted. -/
def sampleDates : List String :=
  ["2024-01-01", "2024-01-08", "2024-01-15", "2024-01-22", "2024-01-29",
   "2024-02-05", "2024-02-12", "2024-02-19", "2024-02-26", "2024-03-04"]

/-- Witness for C7: with 10 missing dates and a cap of 3, exactly the 3 most
recent missing dates are selected, most-recent-first. -/
theorem update_rankings_batching_witness :
    datesToScrape (missingDates sampleDates []) (some 3) =
        (missingDates sampleDates []).take 3 ∧
      (datesToScrape (missingDates sampleDates []) (some 3)).length = 3 ∧
      (datesToScrape (missingDates sampleDates []) (some 3)).Pairwise
        (fun a b => strLe b.data a.data = true) ∧
      (∀ d ∈ datesToScrape (missingDates sampleDates []) (some 3),
        d ∈ sampleDates ∧ d ∉ ([] : List RankRow).map RankRow.date) ∧
      ∀ d ∈ datesToScrape (missingDates sampleDates []) (some 3),
        ∀ e ∈ (missingDates sampleDates []).drop 3, strLe e.data d.data = true :=
  update_rankings_batching sampleDates [] 3 (by decide) (by decide)

/-- C9: unit conversions of the bio parser. When no parenthesized metric
value is present, a pounds value p is converted to round(p * 0.453592)
kilograms and a feet-and-inches value to round((feet*12+inches) * 2.54)
centimeters, with `round` Python rounding (half to even) of the exact
product; a parenthesized metric value is returned as-is, taking precedence
over the imperial pattern when both occur (the source tries the metric
pattern first). In particular "176 lbs" gives 80 kg and 6 feet 2 inches
gives 188 cm, while "(80kg)" and "(185cm)" pass through unchanged. -/
theorem unit_conversions :
    (∀ t : String, ∀ p : Nat, findKgParen t.data = none → findLbs t.data = some p →
        extract_weight_kg t = some (pyRoundDiv (p * 453592) 1000000 : Int)) ∧
      (∀ t : String, ∀ k : Nat, findKgParen t.data = some k →
        extract_weight_kg t = some (k : Int)) ∧
      (∀ t : String, ∀ f i : Nat, findCm t.data = none → findFtIn t.data = some (f, i) →
        extract_height_cm t = some (pyRoundDiv ((f * 12 + i) * 254) 100 : Int)) ∧
      (∀ t : String, ∀ c : Nat, findCm t.data = some c →
        extract_height_cm t = some (c : Int)) ∧
      extract_weight_kg "176 lbs" = some 80 ∧
      extract_height_cm (String.mk ['6', '\'', '2', '"']) = some 188 ∧
      extract_weight_kg "(80kg)" = some 80 ∧
      extract_height_cm "(185cm)" = some 185 := by
  refine ⟨?_, ?_, ?_, ?_, by decide, by decide, by decide, by decide⟩
  · intro t p h1 h2
    unfold extract_weight_kg
    rw [h1, h2]
  · intro t k h1
    unfold extract_weight_kg
    rw [h1]
  · intro t f i h1 h2
    unfold extract_height_cm
    rw [h1, h2]
  · intro t c h1
    unfold extract_height_cm
    rw [h1]

/-- Witness for C9 at the claimed concrete inputs: the lbs and feet/inches
branches applied to "176 lbs" and 6 feet 2 inches. -/
theorem unit_conversions_witness :
    extract_weight_kg "176 lbs" = some (pyRoundDiv (176 * 453592) 1000000 : Int) ∧
      extract_height_cm (String.mk ['6', '\'', '2', '"']) =
        some (pyRoundDiv ((6 * 12 + 2) * 254) 100 : Int) :=
  ⟨unit_conversions.1 "176 lbs" 176 (by decide) (by decide),
   unit_conversions.2.2.1 (String.mk ['6', '\'', '2', '"']) 6 2 (by decide) (by decide)⟩

/-- C10: the cap of update_rankings limits the batch only when truthy —
`max_weeks=0` is falsy in `missing[:max_weeks] if max_weeks else missing`,
so a zero cap selects every missing date, behaving exactly like
`max_weeks=None` both in the selection and in the persisted table. -/
theorem update_rankings_max_weeks_zero (all_dates : List String)
    (existing : List RankRow) (scrape : String → List RankRow) :
    updateRankingsSaved all_dates existing scrape (some 0) =
        updateRankingsSaved all_dates existing scrape none ∧
      ∀ missing : List String, datesToScrape missing (some 0) = missing :=
  ⟨rfl, fun _ => rfl⟩
